import Mathlib

/-!
Verification of the Tavily web-search plugin
(`src/python/semantic_kernel_plugins/plugins/web/tavily_web_search.py`).

The development shallowly embeds the plugin's pure post-processing logic:
the JSON serializer used for size accounting (`json.dumps` with default
separators and `ensure_ascii`), the token-budget truncation
(`_process_results_with_token_limit`), the two markdown renderers, the
detailed-result envelope construction, and the credential check performed
by `__init__`.  The remote provider and the observability logger are
external collaborators; provider calls are modelled as explicit
`Except`-valued arguments and logger calls as an explicit event list.
-/

namespace Tavily

/-- A JSON value, covering the shapes the plugin serializes: strings,
integers (the embedding specializes JSON numbers to integers), booleans,
null, arrays and objects with insertion-ordered keys. -/
inductive Json where
  | str (s : String)
  | num (n : Int)
  | bool (b : Bool)
  | null
  | arr (xs : List Json)
  | obj (kvs : List (String × Json))
deriving Repr

/-- Hexadecimal digit (lowercase), as produced by Python's `\uXXXX` escapes. -/
def hexDigit (n : Nat) : Char :=
  if n < 10 then Char.ofNat (48 + n) else Char.ofNat (87 + n)

/-- Four lowercase hex digits, as in Python's `\uXXXX` escapes. -/
def toHex4 (n : Nat) : String :=
  String.mk [hexDigit (n / 4096 % 16), hexDigit (n / 256 % 16),
             hexDigit (n / 16 % 16), hexDigit (n % 16)]

/-- Escape of a single character inside a JSON string, following Python's
`json.dumps` with `ensure_ascii=True`: printable ASCII other than `"` and
`\` is kept, the usual short escapes are used for control characters, and
everything else becomes `\uXXXX` (with surrogate pairs above U+FFFF). -/
def escapeChar (c : Char) : String :=
  if c = '"' then "\\\""
  else if c = '\\' then "\\\\"
  else if c = '\n' then "\\n"
  else if c = '\r' then "\\r"
  else if c = '\t' then "\\t"
  else if c.toNat = 8 then "\\b"
  else if c.toNat = 12 then "\\f"
  else if c.toNat < 32 then "\\u" ++ toHex4 c.toNat
  else if c.toNat < 127 then String.mk [c]
  else if c.toNat < 65536 then "\\u" ++ toHex4 c.toNat
  else
    let v := c.toNat - 65536
    "\\u" ++ toHex4 (55296 + v / 1024) ++ "\\u" ++ toHex4 (56320 + v % 1024)

/-- JSON string literal as serialized by Python's `json.dumps`. -/
def escapeString (s : String) : String :=
  "\"" ++ String.join (s.data.map escapeChar) ++ "\""

mutual

/-- `json.dumps` with default arguments: item separator `", "`, key
separator `": "`, `ensure_ascii=True`. -/
def dumps : Json → String
  | .str s => escapeString s
  | .num n => toString n
  | .bool b => cond b "true" "false"
  | .null => "null"
  | .arr xs => "[" ++ String.intercalate ", " (dumpsList xs) ++ "]"
  | .obj kvs => "\x7b" ++ String.intercalate ", " (dumpsKvs kvs) ++ "\x7d"

/-- Serializations of the elements of a JSON array. -/
def dumpsList : List Json → List String
  | [] => []
  | x :: xs => dumps x :: dumpsList xs

/-- Serializations of the key/value pairs of a JSON object. -/
def dumpsKvs : List (String × Json) → List String
  | [] => []
  | kv :: kvs => (escapeString kv.1 ++ ": " ++ dumps kv.2) :: dumpsKvs kvs

end

/-- Indentation prefix used by `json.dumps(..., indent=2)` at nesting
level `lvl`. -/
def indentOf (lvl : Nat) : String :=
  String.mk (List.replicate (2 * lvl) ' ')

mutual

/-- `json.dumps` with `indent=2`: each container spreads over several
lines, items are separated by `",\n"` and keys by `": "`. -/
def dumpsInd (lvl : Nat) : Json → String
  | .str s => escapeString s
  | .num n => toString n
  | .bool b => cond b "true" "false"
  | .null => "null"
  | .arr [] => "[]"
  | .arr (x :: xs) =>
      "[\n" ++ String.intercalate ",\n" (dumpsIndList (lvl + 1) (x :: xs))
        ++ "\n" ++ indentOf lvl ++ "]"
  | .obj [] => "\x7b\x7d"
  | .obj (kv :: kvs) =>
      "\x7b\n" ++ String.intercalate ",\n" (dumpsIndKvs (lvl + 1) (kv :: kvs))
        ++ "\n" ++ indentOf lvl ++ "\x7d"

/-- Indented serializations of the elements of a JSON array. -/
def dumpsIndList (lvl : Nat) : List Json → List String
  | [] => []
  | x :: xs => (indentOf lvl ++ dumpsInd lvl x) :: dumpsIndList lvl xs

/-- Indented serializations of the key/value pairs of a JSON object. -/
def dumpsIndKvs (lvl : Nat) : List (String × Json) → List String
  | [] => []
  | kv :: kvs =>
      (indentOf lvl ++ escapeString kv.1 ++ ": " ++ dumpsInd lvl kv.2)
        :: dumpsIndKvs lvl kvs

end

/-- A raw provider result record.  The provider returns dictionaries; the
fields the plugin reads are modelled with `Option` to capture key absence
(`result["title"]` raises `KeyError` when absent, `result.get(...)`
defaults).  The embedding specializes the `score` number to an integer. -/
structure RawResult where
  title : Option String
  url : Option String
  content : Option String
  score : Option Int
deriving Repr, DecidableEq

/-- A provider response: an optional top-level `answer` string and a list
of raw results (`response.get("results", [])` treats a missing key as the
empty list). -/
structure Response where
  answer : Option String
  results : List RawResult
deriving Repr, DecidableEq

/-- The projection kept by `_process_results_with_token_limit` for each
result: exactly the keys `title`, `url`, `content`, `score`. -/
structure CleanResult where
  title : String
  url : String
  content : String
  score : Int
deriving Repr, DecidableEq

/-- The envelope built by `_format_detailed_results`: key `query`, an
optional key `answer`, and key `results`, in that insertion order. -/
structure CleanResponse where
  query : String
  answer : Option String
  results : List CleanResult
deriving Repr, DecidableEq

/-- Plugin configuration, fixed at construction, with the source's
defaults. -/
structure Config where
  search_mode : String := "detailed"
  max_tokens : Int := 6000
  include_answer : Bool := true
  search_depth : String := "advanced"
  format : String := "markdown"
  max_results : Int := 5
deriving Repr, DecidableEq

/-- One call to the observability logger
(`logger.log_search_results(query, results, success)`). -/
structure LogEvent where
  query : String
  results : List RawResult
  success : Bool
deriving Repr, DecidableEq

/-- The dictionary `clean_result` built for one raw result:
`result["title"]`, `result["url"]`, `result["content"]` are strict key
lookups (a missing key raises `KeyError`, modelled as `Except.error` with
the offending key), while `result.get("score", 0)` defaults to `0`. -/
def projectResult (r : RawResult) : Except String CleanResult :=
  match r.title with
  | none => Except.error "title"
  | some t =>
    match r.url with
    | none => Except.error "url"
    | some u =>
      match r.content with
      | none => Except.error "content"
      | some c => Except.ok { title := t, url := u, content := c, score := r.score.getD 0 }

/-- Projection of a whole result list, failing on the first record with a
missing `title`, `url` or `content` key (the per-record behaviour of the
truncation loop, without the budget check). -/
def projectAll : List RawResult → Except String (List CleanResult)
  | [] => Except.ok []
  | r :: rs =>
    match projectResult r with
    | Except.error e => Except.error e
    | Except.ok cr =>
      match projectAll rs with
      | Except.error e => Except.error e
      | Except.ok crs => Except.ok (cr :: crs)

/-- The JSON object `clean_result` (insertion order `title`, `url`,
`content`, `score`). -/
def cleanResultJson (cr : CleanResult) : Json :=
  Json.obj [("title", Json.str cr.title), ("url", Json.str cr.url),
            ("content", Json.str cr.content), ("score", Json.num cr.score)]

/-- `result_tokens = len(json.dumps(clean_result))`: the length of the
default JSON serialization, used as the token proxy. -/
def resultTokens (cr : CleanResult) : Int :=
  ((dumps (cleanResultJson cr)).length : Int)

/-- `_process_results_with_token_limit`: walk the raw results in order,
project each, and stop as soon as adding the projected record's
serialized length would make the running total exceed `maxTokens`
(strict `>`).  `count` is the running `current_token_count`. -/
def process_results_with_token_limit (maxTokens : Int) (count : Int) :
    List RawResult → Except String (List CleanResult)
  | [] => Except.ok []
  | r :: rs =>
    match projectResult r with
    | Except.error e => Except.error e
    | Except.ok cr =>
      if count + resultTokens cr > maxTokens then Except.ok []
      else
        match process_results_with_token_limit maxTokens (count + resultTokens cr) rs with
        | Except.error e => Except.error e
        | Except.ok rest => Except.ok (cr :: rest)

/-- Cumulative serialized size of a list of projected results. -/
def cumulativeSize : List CleanResult → Int
  | [] => 0
  | cr :: l => resultTokens cr + cumulativeSize l

/-- Serialized size of the projection of the result at position `i`
(`0` when out of range or when the projection fails, cases that never
occur where this function is used). -/
def tokensAt (rs : List RawResult) (i : Nat) : Int :=
  match rs.drop i with
  | [] => 0
  | r :: _ =>
    match projectResult r with
    | Except.ok cr => resultTokens cr
    | Except.error _ => 0

/-- Python string truthiness of an optional string: `None` and `""` are
falsy. -/
def pyTruthy : Option String → Bool
  | none => false
  | some s => s ≠ ""

/-- Python `a or b` on optional strings: `a` when truthy, otherwise `b`. -/
def pyOrStr (a b : Option String) : Option String :=
  match a with
  | some s => if s ≠ "" then some s else b
  | none => b

/-- Python slice `xs[:n]`, including the negative-stop convention. -/
def pySliceTo (n : Int) (xs : List α) : List α :=
  if 0 ≤ n then xs.take n.toNat else xs.take ((xs.length : Int) + n).toNat

/-- `clean_response["answer"]`: present exactly when the response carries
an `answer` key and `include_answer` is configured true. -/
def cleanAnswer (cfg : Config) (resp : Response) : Option String :=
  match resp.answer with
  | some a => if cfg.include_answer then some a else none
  | none => none

/-- The `clean_response` envelope of `_format_detailed_results`:
`query`, then the conditional `answer`, then the truncated `results`. -/
def build_clean_response (cfg : Config) (q : String) (resp : Response) :
    Except String CleanResponse :=
  match process_results_with_token_limit cfg.max_tokens 0 resp.results with
  | Except.error e => Except.error e
  | Except.ok crs =>
      Except.ok { query := q, answer := cleanAnswer cfg resp, results := crs }

/-- The key/value pairs of the serialized `clean_response` dictionary, in
insertion order. -/
def cleanResponseKvs (cr : CleanResponse) : List (String × Json) :=
  [("query", Json.str cr.query)]
    ++ (match cr.answer with
        | some a => [("answer", Json.str a)]
        | none => [])
    ++ [("results", Json.arr (cr.results.map cleanResultJson))]

/-- The `## Summary` block of `_convert_to_markdown`, emitted exactly when
the data dictionary carries an `answer` key. -/
def summaryBlock (answer : Option String) : String :=
  match answer with
  | some a => "## Summary\n" ++ a ++ "\n\n"
  | none => ""

/-- One numbered item of `_convert_to_markdown`'s `## Sources` list
(`i` is the zero-based position; the source enumerates from 1). -/
def sourceItemsB : Nat → List CleanResult → String
  | _, [] => ""
  | i, r :: rs =>
      "### " ++ toString (i + 1) ++ ". [" ++ r.title ++ "](" ++ r.url ++ ")\n"
        ++ r.content ++ "\n\n" ++ sourceItemsB (i + 1) rs

/-- The tail of `_convert_to_markdown`: a `## Sources` section when there
are results, otherwise the literal `"No results found."`. -/
def sourcesBlock (results : List CleanResult) : String :=
  match results with
  | [] => "No results found."
  | _ :: _ => "## Sources\n\n" ++ sourceItemsB 0 results

/-- `_convert_to_markdown(query, data)`. -/
def convert_to_markdown (query : String) (data : CleanResponse) : String :=
  "# Search Results: " ++ query ++ "\n\n" ++ summaryBlock data.answer
    ++ sourcesBlock data.results

/-- `_format_detailed_results(query, response)`: build the envelope, then
render it as compact JSON (or the literal `"No results found."` for an
empty — hence unreachable — envelope), as markdown, or as compact JSON
for any other configured format. -/
def format_detailed_results (cfg : Config) (q : String) (resp : Response) :
    Except String String :=
  match build_clean_response cfg q resp with
  | Except.error e => Except.error e
  | Except.ok cr =>
      if cfg.format = "json" then
        Except.ok (if (cleanResponseKvs cr).isEmpty = false then dumps (Json.obj (cleanResponseKvs cr))
                   else "No results found.")
      else if cfg.format = "markdown" then
        Except.ok (convert_to_markdown q cr)
      else
        Except.ok (dumps (Json.obj (cleanResponseKvs cr)))

/-- One numbered item of `_format_results_markdown`'s `## Sources` list:
missing fields are defaulted (`"No Title"`, `""`, `"No Content"`). -/
def sourceItemsA : Nat → List RawResult → String
  | _, [] => ""
  | i, r :: rs =>
      toString (i + 1) ++ ". **[" ++ r.title.getD "No Title" ++ "]("
        ++ r.url.getD "" ++ ")**\n   " ++ r.content.getD "No Content" ++ "\n\n"
        ++ sourceItemsA (i + 1) rs

/-- `_format_results_markdown(results)`: header, an `## Answer` section
when the response carries a truthy `answer`, then `## Sources` over the
first `max_results` raw results. -/
def format_results_markdown (cfg : Config) (resp : Response) : String :=
  "# Search Results\n\n"
    ++ (if pyTruthy resp.answer then "## Answer\n\n" ++ resp.answer.getD "" ++ "\n\n" else "")
    ++ "## Sources\n\n" ++ sourceItemsA 0 (pySliceTo cfg.max_results resp.results)

/-- The JSON object for one raw result, keeping only the present fields
(canonical key order `title`, `url`, `content`, `score`). -/
def rawResultJson (r : RawResult) : Json :=
  Json.obj ((match r.title with | some t => [("title", Json.str t)] | none => [])
    ++ (match r.url with | some u => [("url", Json.str u)] | none => [])
    ++ (match r.content with | some c => [("content", Json.str c)] | none => [])
    ++ (match r.score with | some s => [("score", Json.num s)] | none => []))

/-- The JSON object for a whole provider response. -/
def responseJson (resp : Response) : Json :=
  Json.obj ((match resp.answer with | some a => [("answer", Json.str a)] | none => [])
    ++ [("results", Json.arr (resp.results.map rawResultJson))])

/-- Arguments of the provider call made by `search`. -/
structure SearchCall where
  query : String
  search_depth : String
  max_tokens : Int
  include_answer : Bool
deriving Repr, DecidableEq

/-- `search(query)`: call the provider; on success log the result list and
render the raw response (pretty-printed JSON or markdown); on any provider
failure log a failed observation with an empty result list and return
`"Search failed: <message>"`.  The returned pair is the output string and
the logger events emitted. -/
def search (cfg : Config) (q : String)
    (provider : SearchCall → Except String Response) : String × List LogEvent :=
  match provider { query := q, search_depth := cfg.search_depth,
                   max_tokens := cfg.max_tokens, include_answer := cfg.include_answer } with
  | Except.error e =>
      ("Search failed: " ++ e, [{ query := q, results := [], success := false }])
  | Except.ok results =>
      let events := [{ query := q, results := results.results, success := true : LogEvent }]
      if cfg.format = "json" then (dumpsInd 0 (responseJson results), events)
      else (format_results_markdown cfg results, events)

/-- `max_results or self.max_results`: a `None` or `0` override falls back
to the configured default (Python falsiness of `0`). -/
def effectiveMaxResults (given : Option Int) (dflt : Int) : Int :=
  match given with
  | some n => if n ≠ 0 then n else dflt
  | none => dflt

/-- Arguments of the provider call made by `search_detailed`. -/
structure ProviderCall where
  query : String
  search_depth : String
  include_answer : Bool
  max_results : Int
deriving Repr, DecidableEq

/-- The provider call `search_detailed` performs. -/
def search_detailed_call (cfg : Config) (q : String) (mr : Option Int) : ProviderCall :=
  { query := q, search_depth := cfg.search_depth,
    include_answer := cfg.include_answer,
    max_results := effectiveMaxResults mr cfg.max_results }

/-- `search_detailed(query, max_results=None)`: resolve the result cap,
call the provider, and format the response.  There is no `try`/`except`
and no logger call: any failure propagates as `Except.error`, and the
event list is always empty. -/
def search_detailed (cfg : Config) (q : String) (mr : Option Int)
    (provider : ProviderCall → Except String Response) :
    Except String String × List LogEvent :=
  match provider (search_detailed_call cfg q mr) with
  | Except.error e => (Except.error e, [])
  | Except.ok resp => (format_detailed_results cfg q resp, [])

/-- Construction-time errors.  The source raises
`ValueError("TAVILY_API_KEY not provided")`; the specification names this
error kind `ConfigurationError`. -/
inductive InitError where
  | configurationError (msg : String)
deriving Repr, DecidableEq

/-- Side effects observable during construction: the only one modelled is
the construction of the remote provider handle
(`TavilyClient(api_key=...)`), recorded with the credential used.  The
constructor performs no network call. -/
inductive InitEvent where
  | constructClient (key : String)
deriving Repr, DecidableEq

/-- The state a successful construction establishes (the credential the
provider handle was built from). -/
structure TavilyState where
  api_key : String
deriving Repr, DecidableEq

/-- `__init__`'s credential logic: `api_key or os.getenv("TAVILY_API_KEY")`,
then `raise ValueError(...)` when the effective credential is falsy,
otherwise construct the provider handle.  Returns the result together
with the trace of construction events. -/
def tavily_init (api_key env_key : Option String) :
    Except InitError TavilyState × List InitEvent :=
  match pyOrStr api_key env_key with
  | none => (Except.error (InitError.configurationError "TAVILY_API_KEY not provided"), [])
  | some s =>
      if s = "" then
        (Except.error (InitError.configurationError "TAVILY_API_KEY not provided"), [])
      else (Except.ok { api_key := s }, [InitEvent.constructClient s])

/-- A credential is available from either source when one of the two is a
non-empty string. -/
def credAvailable (api_key env_key : Option String) : Bool :=
  pyTruthy api_key || pyTruthy env_key

/-- The credential `__init__` settles on when one is available. -/
def effectiveKey (api_key env_key : Option String) : String :=
  (pyOrStr api_key env_key).getD ""

/-- `needle` is a prefix of `hay` (character lists). -/
def leadsWith : List Char → List Char → Bool
  | [], _ => true
  | _ :: _, [] => false
  | a :: as, b :: bs => a == b && leadsWith as bs

/-- `needle` occurs somewhere inside `hay` (character lists). -/
def occursIn (needle : List Char) : List Char → Bool
  | [] => leadsWith needle []
  | c :: t => leadsWith needle (c :: t) || occursIn needle t

/-- Substring test on strings (Python's `needle in hay`). -/
def strHasSub (hay needle : String) : Bool :=
  occursIn needle.data hay.data

/-- The raw result with the renderer's defaults filled into its missing
fields (`"No Title"`, `""`, `"No Content"`). -/
def defaulted (r : RawResult) : RawResult :=
  { title := some (r.title.getD "No Title"), url := some (r.url.getD ""),
    content := some (r.content.getD "No Content"), score := r.score }

/-! ### Helper lemmas -/

theorem resultTokens_nonneg (cr : CleanResult) : 0 ≤ resultTokens cr :=
  Int.natCast_nonneg _

theorem cumulativeSize_nonneg : ∀ l : List CleanResult, 0 ≤ cumulativeSize l
  | [] => le_refl 0
  | cr :: l => by
      have h1 := resultTokens_nonneg cr
      have h2 := cumulativeSize_nonneg l
      simp only [cumulativeSize]
      omega

theorem projectAll_length :
    ∀ (rs : List RawResult) (out : List CleanResult),
      projectAll rs = Except.ok out → out.length = rs.length := by
  intro rs
  induction rs with
  | nil =>
      intro out h
      simp only [projectAll] at h
      cases h
      rfl
  | cons r rs ih =>
      intro out h
      simp only [projectAll] at h
      cases hp : projectResult r with
      | error e => rw [hp] at h; cases h
      | ok cr =>
          rw [hp] at h
          cases ha : projectAll rs with
          | error e => rw [ha] at h; cases h
          | ok crs =>
              rw [ha] at h
              cases h
              simp [ih crs ha]

/-- Structure of a successful truncation run: the running total stays
within the budget (unless nothing was kept), the output is the projection
of the prefix of the input of its own length, and when the run stopped
early the next record's projected size pushes the total past the budget. -/
theorem process_ok_spec (B : Int) (rs : List RawResult) :
    ∀ (count : Int) (out : List CleanResult),
      process_results_with_token_limit B count rs = Except.ok out →
      (count + cumulativeSize out ≤ B ∨ out = [])
      ∧ projectAll (rs.take out.length) = Except.ok out
      ∧ (out.length < rs.length →
           B < count + cumulativeSize out + tokensAt rs out.length) := by
  induction rs with
  | nil =>
      intro count out h
      simp only [process_results_with_token_limit] at h
      cases h
      refine ⟨Or.inr rfl, rfl, ?_⟩
      intro hlt
      simp at hlt
  | cons r rs ih =>
      intro count out h
      simp only [process_results_with_token_limit] at h
      cases hp : projectResult r with
      | error e => rw [hp] at h; cases h
      | ok cr =>
          simp only [hp] at h
          by_cases hgt : count + resultTokens cr > B
          · rw [if_pos hgt] at h
            cases h
            refine ⟨Or.inr rfl, rfl, ?_⟩
            intro _
            simp only [cumulativeSize, tokensAt, List.length_nil, List.drop_zero, hp]
            omega
          · rw [if_neg hgt] at h
            cases hrec : process_results_with_token_limit B (count + resultTokens cr) rs with
            | error e => rw [hrec] at h; cases h
            | ok rest =>
                rw [hrec] at h
                cases h
                obtain ⟨ih1, ih2, ih3⟩ := ih (count + resultTokens cr) rest hrec
                refine ⟨?_, ?_, ?_⟩
                · left
                  cases ih1 with
                  | inl hle => simp only [cumulativeSize]; omega
                  | inr hnil =>
                      subst hnil
                      simp only [cumulativeSize] at *
                      omega
                · simp only [List.length_cons, List.take_succ_cons, projectAll, hp, ih2]
                · intro hlt
                  simp only [List.length_cons, Nat.succ_lt_succ_iff] at hlt
                  have h3 := ih3 hlt
                  have : tokensAt (r :: rs) (rest.length + 1) = tokensAt rs rest.length := by
                    simp [tokensAt]
                  simp only [List.length_cons, this, cumulativeSize]
                  omega

/-- When every record projects and the whole projected list fits within
the budget, the truncation keeps everything. -/
theorem process_complete (B : Int) (rs : List RawResult) :
    ∀ (count : Int) (all : List CleanResult),
      projectAll rs = Except.ok all → count + cumulativeSize all ≤ B →
      process_results_with_token_limit B count rs = Except.ok all := by
  induction rs with
  | nil =>
      intro count all h _
      simp only [projectAll] at h
      cases h
      rfl
  | cons r rs ih =>
      intro count all h hle
      simp only [projectAll] at h
      cases hp : projectResult r with
      | error e => rw [hp] at h; cases h
      | ok cr =>
          rw [hp] at h
          cases ha : projectAll rs with
          | error e => rw [ha] at h; cases h
          | ok crs =>
              rw [ha] at h
              cases h
              simp only [cumulativeSize] at hle
              have hnn := cumulativeSize_nonneg crs
              have hng : ¬ (count + resultTokens cr > B) := by omega
              simp only [process_results_with_token_limit, hp, if_neg hng,
                ih (count + resultTokens cr) crs ha (by omega)]

/-- If some record with a missing key is reached by the truncation loop —
every record before it projects and the accumulated size stays within the
budget — the whole truncation fails. -/
theorem process_hits_bad (B : Int) (bad : RawResult) (rest : List RawResult)
    (hbad : bad.title = none ∨ bad.url = none ∨ bad.content = none) :
    ∀ (pre : List RawResult) (preC : List CleanResult) (count : Int),
      projectAll pre = Except.ok preC → count + cumulativeSize preC ≤ B →
      (process_results_with_token_limit B count (pre ++ bad :: rest)).isOk = false := by
  have hbe : ∃ e, projectResult bad = Except.error e := by
    rcases hbad with ht | hu | hc
    · exact ⟨"title", by simp [projectResult, ht]⟩
    · cases hbt : bad.title with
      | none => exact ⟨"title", by simp [projectResult, hbt]⟩
      | some t => exact ⟨"url", by simp [projectResult, hbt, hu]⟩
    · cases hbt : bad.title with
      | none => exact ⟨"title", by simp [projectResult, hbt]⟩
      | some t =>
          cases hbu : bad.url with
          | none => exact ⟨"url", by simp [projectResult, hbt, hbu]⟩
          | some u => exact ⟨"content", by simp [projectResult, hbt, hbu, hc]⟩
  intro pre
  induction pre with
  | nil =>
      intro preC count h _
      simp only [projectAll] at h
      cases h
      obtain ⟨e, he⟩ := hbe
      simp only [List.nil_append, process_results_with_token_limit, he]
      rfl
  | cons p ps ih =>
      intro preC count h hle
      simp only [projectAll] at h
      cases hp : projectResult p with
      | error e => rw [hp] at h; cases h
      | ok cp =>
          rw [hp] at h
          cases ha : projectAll ps with
          | error e => rw [ha] at h; cases h
          | ok psC =>
              rw [ha] at h
              cases h
              simp only [cumulativeSize] at hle
              have hnn := cumulativeSize_nonneg psC
              have hng : ¬ (count + resultTokens cp > B) := by omega
              have hrec := ih psC (count + resultTokens cp) ha (by omega)
              simp only [List.cons_append, process_results_with_token_limit, hp, if_neg hng]
              cases hr : process_results_with_token_limit B (count + resultTokens cp) (ps ++ bad :: rest) with
              | error e => rfl
              | ok o =>
                  rw [hr] at hrec
                  exact Bool.noConfusion hrec

theorem leadsWith_refl : ∀ l : List Char, leadsWith l l = true
  | [] => rfl
  | a :: as => by simp [leadsWith, leadsWith_refl as]

theorem occursIn_append_self (n : List Char) :
    ∀ p : List Char, occursIn n (p ++ n) = true := by
  intro p
  induction p with
  | nil =>
      cases n with
      | nil => rfl
      | cons c t => simp [occursIn, leadsWith_refl]
  | cons a p ih => simp [occursIn, ih]

/-- A string occurs inside any string it terminates. -/
theorem strHasSub_append_self (p n : String) : strHasSub (p ++ n) n = true := by
  simp only [strHasSub, String.data_append]
  exact occursIn_append_self n.data p.data

theorem sourceItemsA_map_defaulted :
    ∀ (i : Nat) (rs : List RawResult),
      sourceItemsA i (rs.map defaulted) = sourceItemsA i rs := by
  intro i rs
  induction rs generalizing i with
  | nil => rfl
  | cons r rs ih => simp [sourceItemsA, defaulted, ih]

theorem pySliceTo_map (n : Int) (f : α → β) (xs : List α) :
    pySliceTo n (xs.map f) = (pySliceTo n xs).map f := by
  simp only [pySliceTo, List.length_map]
  split <;> simp [List.map_take]

/-! ### Concrete example values -/

/-- Raw result used in concrete checks. -/
def exResult : RawResult :=
  { title := some "t", url := some "u", content := some "c", score := none }

/-- Projection of `exResult`; its default JSON serialization is 54
characters long. -/
def exClean : CleanResult := { title := "t", url := "u", content := "c", score := 0 }

/-! ### Claims -/

/-- C1 (amended): for a positive configured budget `B`, a successful
truncation run keeps a cumulative projected-JSON size of **at most** `B`
(the bound is not strict: the total can equal `B` exactly), its output is
the projection of a prefix of the input, it keeps everything when all
records project and the total fits within `B`, and whenever it stops
early the first excluded record's size pushes the running total strictly
past `B` (the source's strict `>` comparison). -/
theorem C1_truncation_budget (B : Int) (rs : List RawResult) (out : List CleanResult)
    (hB : 0 < B)
    (h : process_results_with_token_limit B 0 rs = Except.ok out) :
    cumulativeSize out ≤ B
    ∧ projectAll (rs.take out.length) = Except.ok out
    ∧ (∀ all, projectAll rs = Except.ok all → cumulativeSize all ≤ B → out = all)
    ∧ (out.length < rs.length → B < cumulativeSize out + tokensAt rs out.length) := by
  obtain ⟨h1, h2, h3⟩ := process_ok_spec B rs 0 out h
  refine ⟨?_, h2, ?_, ?_⟩
  · cases h1 with
    | inl hle => omega
    | inr hnil =>
        subst hnil
        simp only [cumulativeSize]
        omega
  · intro all hall hfit
    have hc := process_complete B rs 0 all hall (by omega)
    rw [h] at hc
    exact Except.ok.inj hc
  · intro hlt
    have := h3 hlt
    omega

/-- C1 counterexample: with the budget exactly the 54-character size of
one projected record, the first record is included, the second candidate
is excluded, and the kept cumulative size **equals** the budget — it is
not strictly below it, refuting the claim's strict bound. -/
theorem C1_truncation_budget_cex :
    process_results_with_token_limit 54 0 [exResult, exResult] = Except.ok [exClean]
    ∧ cumulativeSize [exClean] = 54
    ∧ ¬ cumulativeSize [exClean] < 54 := by
  refine ⟨rfl, rfl, by decide⟩

/-- C1 witness: the amended theorem at a concrete run (budget 100, two
records of size 54, one kept). -/
theorem C1_truncation_budget_witness :
    cumulativeSize [exClean] ≤ 100
    ∧ projectAll (List.take 1 [exResult, exResult]) = Except.ok [exClean]
    ∧ 100 < cumulativeSize [exClean] + tokensAt [exResult, exResult] 1 := by
  have h := C1_truncation_budget 100 [exResult, exResult] [exClean] (by decide) rfl
  exact ⟨h.1, h.2.1, h.2.2.2 (by decide)⟩

/-- C5: a successful truncation run returns exactly the projections of a
prefix of the input list, in the original relative order — no reordering
by score or any other key. -/
theorem C5_truncation_prefix (B : Int) (rs : List RawResult) (out : List CleanResult)
    (h : process_results_with_token_limit B 0 rs = Except.ok out) :
    out.length ≤ rs.length
    ∧ projectAll (rs.take out.length) = Except.ok out := by
  obtain ⟨-, h2, -⟩ := process_ok_spec B rs 0 out h
  refine ⟨?_, h2⟩
  have hl := projectAll_length _ _ h2
  simp only [List.length_take] at hl
  omega

/-- C5 witness: the prefix property at a concrete run. -/
theorem C5_truncation_prefix_witness :
    ([exClean] : List CleanResult).length ≤ ([exResult, exResult] : List RawResult).length
    ∧ projectAll (List.take 1 [exResult, exResult]) = Except.ok [exClean] :=
  C5_truncation_prefix 100 [exResult, exResult] [exClean] rfl

/-- C3: when the provider call inside `search` fails with message `e`,
`search` logs a failed observation with an empty result list and returns
the string `"Search failed: <message>"`; nothing propagates to the
caller. -/
theorem C3_search_swallows_failure (cfg : Config) (q e : String)
    (provider : SearchCall → Except String Response)
    (h : provider { query := q, search_depth := cfg.search_depth,
                    max_tokens := cfg.max_tokens, include_answer := cfg.include_answer }
           = Except.error e) :
    search cfg q provider
      = ("Search failed: " ++ e, [{ query := q, results := [], success := false }]) := by
  simp only [search, h]

/-- C3 witness: a concrete failing provider. -/
theorem C3_search_swallows_failure_witness :
    search {} "q" (fun _ => Except.error "boom")
      = ("Search failed: boom", [{ query := "q", results := [], success := false }]) :=
  C3_search_swallows_failure {} "q" "boom" (fun _ => Except.error "boom") rfl

/-- C4: construction fails with the configuration error exactly when no
credential is available from either the argument or the environment
variable, and in that case no provider handle is constructed (the event
trace is empty, so no network call can have been attempted); with a
credential available from either source, construction succeeds and the
provider handle is built from the effective credential. -/
theorem C4_init_requires_credential (api_key env_key : Option String) :
    tavily_init api_key env_key
      = (if credAvailable api_key env_key then
           Except.ok { api_key := effectiveKey api_key env_key }
         else Except.error (InitError.configurationError "TAVILY_API_KEY not provided"),
         if credAvailable api_key env_key then
           [InitEvent.constructClient (effectiveKey api_key env_key)]
         else []) := by
  cases api_key with
  | none =>
      cases env_key with
      | none => rfl
      | some s =>
          by_cases hs : s = "" <;>
            simp [tavily_init, pyOrStr, credAvailable, pyTruthy, effectiveKey, hs]
  | some s =>
      by_cases hs : s = ""
      · cases env_key with
        | none => simp [tavily_init, pyOrStr, credAvailable, pyTruthy, effectiveKey, hs]
        | some t =>
            by_cases ht : t = "" <;>
              simp [tavily_init, pyOrStr, credAvailable, pyTruthy, effectiveKey, hs, ht]
      · simp [tavily_init, pyOrStr, credAvailable, pyTruthy, effectiveKey, hs]

/-- C7: a provider failure inside `search_detailed` propagates unchanged
to the caller: no catch, no observability event, no error string. -/
theorem C7_detailed_propagates (cfg : Config) (q : String) (mr : Option Int) (e : String)
    (provider : ProviderCall → Except String Response)
    (h : provider (search_detailed_call cfg q mr) = Except.error e) :
    search_detailed cfg q mr provider = (Except.error e, []) := by
  simp only [search_detailed, h]

/-- C7 witness: a concrete failing provider. -/
theorem C7_detailed_propagates_witness :
    search_detailed {} "q" none (fun _ => Except.error "down") = (Except.error "down", []) :=
  C7_detailed_propagates {} "q" none "down" (fun _ => Except.error "down") rfl

/-- C8: an explicit `max_results` of `0` is indistinguishable from not
supplying one: the configured default cap is passed to the provider in
both cases and the whole call behaves identically. -/
theorem C8_zero_max_results (cfg : Config) (q : String)
    (provider : ProviderCall → Except String Response) :
    search_detailed cfg q (some 0) provider = search_detailed cfg q none provider
    ∧ (search_detailed_call cfg q (some 0)).max_results = cfg.max_results
    ∧ (search_detailed_call cfg q none).max_results = cfg.max_results := by
  refine ⟨?_, ?_, rfl⟩
  · simp [search_detailed, search_detailed_call, effectiveMaxResults]
  · simp [search_detailed_call, effectiveMaxResults]

/-- C2 (amended): with `include_answer = false`, `search_detailed`'s
envelope never carries an `answer` key — its JSON object's keys are
exactly `query` and `results`, and its markdown output is the header
followed directly by the sources block, with no `## Summary` section —
for every provider response, even one supplying an answer.  The original
claim also covered `search`, which in fact renders the provider response
verbatim (see the counterexample). -/
theorem C2_no_answer_when_disabled (cfg : Config) (q : String) (resp : Response)
    (cr : CleanResponse)
    (hia : cfg.include_answer = false)
    (h : build_clean_response cfg q resp = Except.ok cr) :
    cr.answer = none
    ∧ (cleanResponseKvs cr).map Prod.fst = ["query", "results"]
    ∧ convert_to_markdown q cr
        = "# Search Results: " ++ q ++ "\n\n" ++ sourcesBlock cr.results := by
  have hans : cr.answer = none := by
    simp only [build_clean_response] at h
    cases hp : process_results_with_token_limit cfg.max_tokens 0 resp.results with
    | error e => rw [hp] at h; cases h
    | ok crs =>
        rw [hp] at h
        cases h
        cases hra : resp.answer <;> simp [cleanAnswer, hia, hra]
  refine ⟨hans, ?_, ?_⟩
  · simp [cleanResponseKvs, hans]
  · simp [convert_to_markdown, summaryBlock, hans, String.append_empty]

/-- Configuration used by the C2 counterexample: answers disabled,
markdown output. -/
def cfgC2 : Config := { include_answer := false, format := "markdown" }

/-- Provider response carrying an answer despite `include_answer = false`. -/
def respC2 : Response := { answer := some "The answer", results := [] }

/-- C2 counterexample: with `include_answer = false`, `search` still
renders a provider-supplied answer — its markdown output contains an
`## Answer` section — refuting the claim for the `search` entry point. -/
theorem C2_no_answer_when_disabled_cex :
    cfgC2.include_answer = false
    ∧ strHasSub (search cfgC2 "q" (fun _ => Except.ok respC2)).1 "## Answer" = true :=
  ⟨rfl, by decide⟩

/-- C2 witness: the amended theorem at a concrete response. -/
theorem C2_no_answer_when_disabled_witness :
    ({ query := "x", answer := none, results := [] } : CleanResponse).answer = none
    ∧ (cleanResponseKvs { query := "x", answer := none, results := [] }).map Prod.fst
        = ["query", "results"]
    ∧ convert_to_markdown "x" { query := "x", answer := none, results := [] }
        = "# Search Results: " ++ "x" ++ "\n\n" ++ sourcesBlock [] :=
  C2_no_answer_when_disabled cfgC2 "x" respC2
    { query := "x", answer := none, results := [] } rfl rfl

/-- C6 (amended): given zero results, the detailed-path markdown renderer
(`_convert_to_markdown`) produces a document containing the literal text
`"No results found."`, and the JSON envelope's `results` collection is
empty.  The claim's other markdown renderer (`_format_results_markdown`)
emits no such indicator (see the counterexample). -/
theorem C6_zero_results (cfg : Config) (q : String) (resp : Response)
    (hr : resp.results = []) :
    build_clean_response cfg q resp
      = Except.ok { query := q, answer := cleanAnswer cfg resp, results := [] }
    ∧ strHasSub
        (convert_to_markdown q { query := q, answer := cleanAnswer cfg resp, results := [] })
        "No results found." = true
    ∧ List.lookup "results"
        (cleanResponseKvs { query := q, answer := cleanAnswer cfg resp, results := [] })
      = some (Json.arr []) := by
  refine ⟨?_, ?_, ?_⟩
  · simp [build_clean_response, hr, process_results_with_token_limit]
  · have hconv : convert_to_markdown q { query := q, answer := cleanAnswer cfg resp, results := [] }
        = ("# Search Results: " ++ q ++ "\n\n" ++ summaryBlock (cleanAnswer cfg resp))
            ++ "No results found." := rfl
    rw [hconv]
    exact strHasSub_append_self _ _
  · cases hca : cleanAnswer cfg resp <;> rfl

/-- Empty provider response for the C6 counterexample. -/
def respEmpty : Response := { answer := none, results := [] }

/-- C6 counterexample: with zero results, `_format_results_markdown`
(the renderer `search` uses) produces no `"No results found."`
indicator, refuting the claim for that renderer. -/
theorem C6_zero_results_cex :
    respEmpty.results = []
    ∧ strHasSub (format_results_markdown {} respEmpty) "No results found." = false :=
  ⟨rfl, by decide⟩

/-- C6 witness: the amended theorem at a concrete empty response. -/
theorem C6_zero_results_witness :
    build_clean_response {} "x" respEmpty
      = Except.ok { query := "x", answer := cleanAnswer {} respEmpty, results := [] }
    ∧ strHasSub
        (convert_to_markdown "x" { query := "x", answer := cleanAnswer {} respEmpty, results := [] })
        "No results found." = true
    ∧ List.lookup "results"
        (cleanResponseKvs { query := "x", answer := cleanAnswer {} respEmpty, results := [] })
      = some (Json.arr []) :=
  C6_zero_results {} "x" respEmpty rfl

/-- C9 (amended): with format `json` and `include_answer = true`, for a
successful response with an answer and one complete result whose
projected serialization fits within the token budget, `search_detailed`'s
output is the serialization of an object with exactly the keys `query`,
`answer` and `results`, where `results` holds exactly one object with
exactly the keys `title`, `url`, `content` and `score`.  Without the
budget proviso the lone result can be truncated away (see the
counterexample). -/
theorem C9_json_shape (cfg : Config) (q t u c a : String) (sc : Option Int)
    (hfmt : cfg.format = "json")
    (hia : cfg.include_answer = true)
    (hfit : resultTokens { title := t, url := u, content := c, score := sc.getD 0 }
              ≤ cfg.max_tokens) :
    format_detailed_results cfg q
        { answer := some a,
          results := [{ title := some t, url := some u, content := some c, score := sc }] }
      = Except.ok (dumps (Json.obj
          [("query", Json.str q), ("answer", Json.str a),
           ("results", Json.arr [cleanResultJson
              { title := t, url := u, content := c, score := sc.getD 0 }])])) := by
  have hng : ¬ ((0 : Int)
      + resultTokens { title := t, url := u, content := c, score := sc.getD 0 }
      > cfg.max_tokens) := by omega
  have hpr : process_results_with_token_limit cfg.max_tokens 0
      [{ title := some t, url := some u, content := some c, score := sc }]
      = Except.ok [{ title := t, url := u, content := c, score := sc.getD 0 }] := by
    simp only [process_results_with_token_limit, projectResult]
    rw [if_neg hng]
  have hb : build_clean_response cfg q
      { answer := some a,
        results := [{ title := some t, url := some u, content := some c, score := sc }] }
      = Except.ok { query := q, answer := some a,
                    results := [{ title := t, url := u, content := c, score := sc.getD 0 }] } := by
    simp only [build_clean_response, hpr, cleanAnswer, hia, if_true]
  simp only [format_detailed_results, hb, hfmt]
  rfl

/-- Configuration for the C9 counterexample: JSON output, 10-token
budget. -/
def cfgC9 : Config := { format := "json", max_tokens := 10 }

/-- One-result response with an answer for the C9 counterexample. -/
def respC9 : Response :=
  { answer := some "A",
    results := [{ title := some "T", url := some "U", content := some "C", score := none }] }

/-- C9 counterexample: the single result's 54-character projection
exceeds the 10-token budget, so the envelope's `results` list is empty —
not a one-item list — refuting the claim without a budget proviso. -/
theorem C9_json_shape_cex :
    cfgC9.format = "json" ∧ cfgC9.include_answer = true ∧ respC9.results.length = 1
    ∧ build_clean_response cfgC9 "q" respC9
        = Except.ok { query := "q", answer := some "A", results := [] } :=
  ⟨rfl, rfl, rfl, rfl⟩

/-- C9 witness: the amended theorem at a concrete fitting result. -/
theorem C9_json_shape_witness :
    format_detailed_results { format := "json" } "q"
        { answer := some "A",
          results := [{ title := some "T", url := some "U", content := some "C", score := none }] }
      = Except.ok (dumps (Json.obj
          [("query", Json.str "q"), ("answer", Json.str "A"),
           ("results", Json.arr [cleanResultJson
              { title := "T", url := "U", content := "C", score := 0 }])])) :=
  C9_json_shape { format := "json" } "q" "T" "U" "C" "A" none rfl rfl (by decide)

/-- C10 (amended): a record missing `title`, `url` or `content` that the
truncation loop actually reaches — every earlier record projects and the
accumulated size stays within the budget — makes the truncation, and with
it `search_detailed`, fail with a lookup error naming the missing key;
the markdown renderer used by `search` instead substitutes the defaults
`"No Title"`, `""`, `"No Content"` and never fails: rendering any
response equals rendering the same response with those defaults filled
in.  The original claim's quantification over *any* defective record is
too strong: a record past the budget stop is never projected (see the
counterexample). -/
theorem C10_missing_fields (cfg : Config) (q : String) (ans : Option String)
    (pre : List RawResult) (preC : List CleanResult) (bad : RawResult) (rest : List RawResult)
    (hbad : bad.title = none ∨ bad.url = none ∨ bad.content = none)
    (hpre : projectAll pre = Except.ok preC)
    (hfit : cumulativeSize preC ≤ cfg.max_tokens) :
    (process_results_with_token_limit cfg.max_tokens 0 (pre ++ bad :: rest)).isOk = false
    ∧ ((search_detailed cfg q none
          (fun _ => Except.ok { answer := ans, results := pre ++ bad :: rest })).1).isOk = false
    ∧ format_results_markdown cfg
        { answer := ans, results := (pre ++ bad :: rest).map defaulted }
        = format_results_markdown cfg { answer := ans, results := pre ++ bad :: rest } := by
  have h1 := process_hits_bad cfg.max_tokens bad rest hbad pre preC 0 hpre (by omega)
  refine ⟨h1, ?_, ?_⟩
  · cases hp : process_results_with_token_limit cfg.max_tokens 0 (pre ++ bad :: rest) with
    | ok o => rw [hp] at h1; exact Bool.noConfusion h1
    | error e =>
        simp only [search_detailed, format_detailed_results, build_clean_response, hp]
        rfl
  · simp only [format_results_markdown, pySliceTo_map, sourceItemsA_map_defaulted]

/-- Configuration for the C10 counterexample: 10-token budget. -/
def cfgC10 : Config := { max_tokens := 10 }

/-- A raw record missing its `title` key. -/
def badC10 : RawResult := { title := none, url := some "u", content := some "c", score := none }

/-- C10 counterexample: the defective record sits after the budget stop
(the first record's 54-character projection already exceeds the 10-token
budget), is never projected, and `search_detailed` succeeds — refuting
the claim's quantification over any defective record in the response. -/
theorem C10_missing_fields_cex :
    badC10.title = none
    ∧ process_results_with_token_limit cfgC10.max_tokens 0 [exResult, badC10] = Except.ok []
    ∧ ((search_detailed cfgC10 "q" none
          (fun _ => Except.ok { answer := none, results := [exResult, badC10] })).1).isOk
        = true :=
  ⟨rfl, rfl, rfl⟩

/-- C10 witness: the amended theorem with the defective record in first
position, reached immediately. -/
theorem C10_missing_fields_witness :
    (process_results_with_token_limit ({} : Config).max_tokens 0 [badC10]).isOk = false
    ∧ ((search_detailed {} "q" none
          (fun _ => Except.ok { answer := none, results := [badC10] })).1).isOk = false
    ∧ format_results_markdown {} { answer := none, results := [badC10].map defaulted }
        = format_results_markdown {} { answer := none, results := [badC10] } :=
  C10_missing_fields {} "q" none [] [] badC10 [] (Or.inl rfl) rfl (by decide)

end Tavily
